import Mathlib

/-!
# Verification of the gcp-backups snapshot orchestrator (src/backup.go)

Shallow embedding of the Go program `backup.go`.  Strings are modelled as
`List Char` (the inputs are ASCII, so Go's byte-based `len` agrees with the
character count).  The concurrent create/delete fan-out of `main` is modelled
by explicit result-arrival orders; machine integers are modelled as `Int`.
-/

namespace GcpBackups

/-- Go strings, modelled as lists of characters. -/
abbrev Str := List Char

/-- `Snapshot` struct (src/backup.go:21-24). -/
structure Snapshot where
  name : Str
  id : Str
deriving DecidableEq, Repr

/-- `Disk` struct (src/backup.go:14-19). -/
structure Disk where
  name : Str
  id : Str
  zone : Str
  snapshots : List Snapshot
deriving DecidableEq, Repr

/-- `Max` (src/backup.go:26-31), on Go ints. -/
def Max (x y : Int) : Int := if x > y then x else y

/-! ## Go standard-library string operations used by the synthesizer -/

/-- Go `strings.Split(s, "-")` (splits at every hyphen; `Split("", "-") = [""]`). -/
def splitOnHyphen : Str → List Str
  | [] => [[]]
  | c :: rest =>
    match splitOnHyphen rest with
    | [] => [[]]
    | p :: ps => if c = '-' then [] :: p :: ps else (c :: p) :: ps

/-- Go `strings.Join(parts, "-")`. -/
def joinHyphen : List Str → Str
  | [] => []
  | [p] => p
  | p :: ps => p ++ '-' :: joinHyphen ps

/-- Go `strings.Replace(s, "--", "-", -1)`: one left-to-right pass replacing
non-overlapping occurrences of `--` by `-` (so `---` becomes `--`). -/
def collapse : Str → Str
  | [] => []
  | [c] => [c]
  | c :: c2 :: rest =>
    if c = '-' && c2 = '-' then '-' :: collapse rest
    else c :: collapse (c2 :: rest)

/-- `true` iff the string contains the substring `--`. -/
def hasDD : Str → Bool
  | [] => false
  | [_] => false
  | c :: c2 :: rest => (c = '-' && c2 = '-') || hasDD (c2 :: rest)

/-- Go `fmt.Sprintf("%0*d", w, n)` for a non-negative value: decimal digits of
`n` left-padded with zeros to width `w` (all digits are kept if there are more
than `w`). -/
def padNum (w n : Nat) : Str :=
  let ds := (Nat.repr n).toList
  List.replicate (w - ds.length) '0' ++ ds

/-- The timestamp token of src/backup.go:72:
`fmt.Sprintf("%04d%02d%02d%02d%02d", year, month, day, hour, minute)`. -/
def formatTime (y mo d h mi : Nat) : Str :=
  padNum 4 y ++ padNum 2 mo ++ padNum 2 d ++ padNum 2 h ++ padNum 2 mi

/-! ## The name synthesizer (src/backup.go:74-100) -/

/-- The loop state of the truncation loop of `createSnapshotForDisk`
(src/backup.go:79-93): `startPartEnd`/`endPartStart` delimit the head and tail
windows of admitted segments, `spaceLeft` is the remaining budget (a Go `int`,
so it may be negative). -/
structure TruncState where
  startPartEnd : Nat
  endPartStart : Nat
  spaceLeft : Int
deriving DecidableEq, Repr

/-- One iteration of the truncation loop (src/backup.go:82-93).  Note that the
budget test looks at `parts[i]` (resp. `parts[n-i-1]`) while the window grows
by `parts[startPartEnd]` (resp. `parts[endPartStart-1]`), exactly as in the
source. -/
def truncStep (parts : List Str) (n : Nat) (st : TruncState) (i : Nat) : TruncState :=
  let startPartLen : Int := ((parts.getD i []).length : Int)
  let endPartLen : Int := ((parts.getD (n - i - 1) []).length : Int)
  let st1 :=
    if startPartLen < st.spaceLeft then
      { st with startPartEnd := st.startPartEnd + 1
                spaceLeft := st.spaceLeft - (startPartLen + 1) }
    else st
  if endPartLen < st1.spaceLeft then
    { st1 with endPartStart := st1.endPartStart - 1
               spaceLeft := st1.spaceLeft - (endPartLen + 1) }
  else st1

/-- The naming logic of `createSnapshotForDisk` (src/backup.go:74-100), as a
function of the disk name, the disk id, and the already-formatted timestamp
token. -/
def synthesize (diskName diskId timePart : Str) : Str :=
  let spaceLeft : Int := 55 - (timePart.length : Int) - (diskId.length : Int)
  let parts := splitOnHyphen diskName
  let n := parts.length
  let st := (List.range n).foldl (truncStep parts n) ⟨0, n, spaceLeft⟩
  let endPartStart := if st.endPartStart ≤ st.startPartEnd then n else st.endPartStart
  collapse (joinHyphen (parts.take st.startPartEnd) ++
    '-' :: (joinHyphen (parts.drop endPartStart) ++
      '-' :: (diskId ++ '-' :: timePart)))

/-- The `Snapshot` value built by `createSnapshotForDisk` (src/backup.go:102):
only the name is set, the id stays empty (also in non-dry-run mode). -/
def createSnapshotForDisk (d : Disk) (timePart : Str) : Snapshot :=
  { name := synthesize d.name d.id timePart, id := [] }

/-! ## The orchestration of `main` (src/backup.go:123-242)

The concurrent fan-out/fan-in is shallow-embedded: the provider (the `gcloud`
calls) is an oracle deciding which mutating calls succeed, and the order in
which created snapshots arrive on the `snapshotsCreated` channel is an explicit
parameter `order` (the fan-in loop of src/backup.go:186-194 prepends the j-th
*received* snapshot to the j-th disk, regardless of which disk it was created
for).  A `log.Fatal` (process termination) is modelled by the `fatal` outcome.
-/

/-- A mutating provider call (a `gcloud` command that creates or deletes). -/
inductive Mut where
  | create (diskName zone snapName : Str)
  | delete (snapName : Str)
deriving DecidableEq, Repr

/-- The provider oracle: which create/delete submissions succeed. -/
structure Provider where
  createOk : Str → Str → Str → Bool
  deleteOk : Str → Bool

/-- The provider mutations issued by `createSnapshotForDisk` (src/backup.go:104-110):
none in dry-run mode, otherwise the `gcloud ... disks snapshot` call. -/
def createSnapshotCall (d : Disk) (snapName : Str) (dryRun : Bool) : List Mut :=
  if dryRun then [] else [Mut.create d.name d.zone snapName]

/-- The provider mutations issued by `deleteSnapshot` (src/backup.go:113-121):
none in dry-run mode, otherwise the `gcloud ... snapshots delete` call. -/
def deleteSnapshotCall (s : Snapshot) (dryRun : Bool) : List Mut :=
  if dryRun then [] else [Mut.delete s.name]

/-- The snapshots created in one run, one per disk in disk order
(src/backup.go:175-185). -/
def createdSnapshots (disks : List Disk) (tp : Str) : List Snapshot :=
  disks.map (fun d => createSnapshotForDisk d tp)

/-- The snapshots as they arrive on the `snapshotsCreated` channel: `order`
lists, for each receive, the index of the disk whose creation completed. -/
def arrivalsOf (disks : List Disk) (tp : Str) (order : List Nat) : List Snapshot :=
  order.map (fun j => (createdSnapshots disks tp).getD j { name := [], id := [] })

/-- The fan-in loop of src/backup.go:186-194: the j-th received snapshot is
prepended to the j-th disk's newest-first snapshot list. -/
def attachCreated (disks : List Disk) (arrivals : List Snapshot) : List Disk :=
  List.zipWith (fun d s => { d with snapshots := s :: d.snapshots }) disks arrivals

/-- The snapshots of one disk scheduled for deletion by the retention phase
(src/backup.go:203-223): none when `diff = len - limit ≤ 0`, otherwise the
entries at indices `[limit, len)` of the newest-first list. -/
def deletionCandidates (d : Disk) (limit : Nat) : List Snapshot :=
  if d.snapshots.length ≤ limit then [] else d.snapshots.drop limit

/-- The snapshots of one disk that remain (provider-side) after the retention
phase: the complement of `deletionCandidates`, i.e. the newest-first prefix of
length `limit` (the whole list when nothing is deleted). -/
def keptSnapshots (d : Disk) (limit : Nat) : List Snapshot :=
  if d.snapshots.length ≤ limit then d.snapshots else d.snapshots.take limit

/-- The per-disk deleted count reported by src/backup.go:233:
`Max(0, len(disk.Snapshots) - limit)`. -/
def reportedDeleted (d : Disk) (limit : Nat) : Int :=
  Max 0 ((d.snapshots.length : Int) - (limit : Int))

/-- All create mutations issued by the creation phase. -/
def createMuts (disks : List Disk) (tp : Str) (dryRun : Bool) : List Mut :=
  List.flatten (disks.map (fun d =>
    createSnapshotCall d (synthesize d.name d.id tp) dryRun))

/-- All delete mutations issued by the retention phase. -/
def deleteMuts (disks1 : List Disk) (limit : Nat) (dryRun : Bool) : List Mut :=
  List.flatten (disks1.map (fun d =>
    List.flatten ((deletionCandidates d limit).map (fun s => deleteSnapshotCall s dryRun))))

/-- Whether the creation phase completes without a `log.Fatal`
(src/backup.go:178-182): in dry-run mode no provider call is made; otherwise
every disk's create submission must succeed. -/
def createPhaseOk (p : Provider) (disks : List Disk) (tp : Str) (dryRun : Bool) : Bool :=
  dryRun || disks.all (fun d => p.createOk d.name d.zone (synthesize d.name d.id tp))

/-- Whether the retention phase completes without a `log.Fatal`
(src/backup.go:216-220). -/
def deletePhaseOk (p : Provider) (disks1 : List Disk) (limit : Nat) (dryRun : Bool) : Bool :=
  dryRun || disks1.all (fun d => (deletionCandidates d limit).all (fun s => p.deleteOk s.name))

/-- The observable result of a completed run. -/
structure RunResult where
  disksAfterCreate : List Disk
  reports : List Int
  muts : List Mut
deriving DecidableEq, Repr

/-- The outcome of one invocation of `main`: early return with no disks
(src/backup.go:149-152), process termination through `log.Fatal`, or normal
completion. -/
inductive Outcome where
  | noDisks
  | fatal (muts : List Mut)
  | done (r : RunResult)
deriving DecidableEq, Repr

/-- The mutating provider calls issued during a run, whatever its outcome. -/
def Outcome.muts : Outcome → List Mut
  | Outcome.noDisks => []
  | Outcome.fatal m => m
  | Outcome.done r => r.muts

/-- `main` (src/backup.go:123-242) after inventory loading: creation phase,
then retention phase, two strictly sequential phases.  If a create fails the
process dies before any deletion is started; if a delete fails the process
dies after the creates. -/
def runMain (p : Provider) (disks : List Disk) (tp : Str) (order : List Nat)
    (limit : Nat) (dryRun : Bool) : Outcome :=
  if disks.length = 0 then Outcome.noDisks
  else if createPhaseOk p disks tp dryRun = false then
    Outcome.fatal (createMuts disks tp dryRun)
  else
    let disks1 := attachCreated disks (arrivalsOf disks tp order)
    if deletePhaseOk p disks1 limit dryRun = false then
      Outcome.fatal (createMuts disks tp dryRun ++ deleteMuts disks1 limit dryRun)
    else
      Outcome.done
        { disksAfterCreate := disks1
          reports := disks1.map (fun d => reportedDeleted d limit)
          muts := createMuts disks tp dryRun ++ deleteMuts disks1 limit dryRun }

/-! ## The process-exit model of `getCommandResult` and the inventory loader -/

/-- Result of a function call in a process that may terminate (`log.Fatal`
calls `os.Exit(1)`): either the function returns a value, or the whole
process exits first. -/
inductive ProcResult (α : Type) where
  | ok (val : α)
  | exited
deriving DecidableEq, Repr

/-- `getCommandResult` (src/backup.go:33-43).  The external command's outcome
is a parameter: `cmdOut` is its combined output and `cmdErr` its error, if
any.  On a command error, `log.Fatal` terminates the process, so the
`return make([]byte, 0), errors.New(...)` on src/backup.go:39 never runs. -/
def getCommandResult (cmdOut : Str) (cmdErr : Option Str) : ProcResult (Str × Option Str) :=
  match cmdErr with
  | some _ => ProcResult.exited
  | none => ProcResult.ok (cmdOut, none)

/-- `getDisksToSnapshot` (src/backup.go:45-55).  `unmarshalled` is the outcome
of `json.Unmarshal` on the command output: `none` models a parse error, whose
error value the source discards, leaving `disks` at its initial empty value.
The middle branch is the source's error-forwarding branch (src/backup.go:49-51). -/
def getDisksToSnapshot (cmdOut : Str) (cmdErr : Option Str)
    (unmarshalled : Option (List Disk)) : ProcResult (List Disk × Option Str) :=
  match getCommandResult cmdOut cmdErr with
  | ProcResult.exited => ProcResult.exited
  | ProcResult.ok (_, some e) => ProcResult.ok ([], some e)
  | ProcResult.ok (_, none) =>
    ProcResult.ok (match unmarshalled with | some ds => ds | none => [], none)

/-- `getDiskSnapshots` (src/backup.go:57-67), analogous to
`getDisksToSnapshot`: a `json.Unmarshal` parse error is discarded and the
disk is treated as having no snapshots. -/
def getDiskSnapshots (cmdOut : Str) (cmdErr : Option Str)
    (unmarshalled : Option (List Snapshot)) : ProcResult (List Snapshot × Option Str) :=
  match getCommandResult cmdOut cmdErr with
  | ProcResult.exited => ProcResult.exited
  | ProcResult.ok (_, some e) => ProcResult.ok ([], some e)
  | ProcResult.ok (_, none) =>
    ProcResult.ok (match unmarshalled with | some ss => ss | none => [], none)

/-! ## Fixtures used by witnesses and counterexamples -/

/-- A provider on which every mutating call succeeds. -/
def okProvider : Provider :=
  { createOk := fun _ _ _ => true, deleteOk := fun _ => true }

/-- A provider on which every create call fails. -/
def failProvider : Provider :=
  { createOk := fun _ _ _ => false, deleteOk := fun _ => true }

/-- Example timestamp token: `202401151230`. -/
def tpEx : Str := formatTime 2024 1 15 12 30

/-- An example pre-existing snapshot. -/
def oldSnapEx (c : Char) : Snapshot := { name := ['s', c], id := [] }

/-- An example disk with no snapshots. -/
def dEx0 : Disk := { name := ['a'], id := ['b'], zone := ['z'], snapshots := [] }

/-- An example disk with three pre-existing snapshots (newest first). -/
def dExOld : Disk :=
  { name := ['a'], id := ['b'], zone := ['z'],
    snapshots := [oldSnapEx '1', oldSnapEx '2', oldSnapEx '3'] }

/-- The snapshot created for `dExOld` in the example run. -/
def newSnapEx : Snapshot := createSnapshotForDisk dExOld tpEx

/-- `dExOld` after the creation phase prepended `newSnapEx`. -/
def dEx1 : Disk := { dExOld with snapshots := newSnapEx :: dExOld.snapshots }

/-- The run result of the non-dry example run over `[dEx0]` with limit 7. -/
def rEx : RunResult :=
  { disksAfterCreate := [{ dEx0 with snapshots := [createSnapshotForDisk dEx0 tpEx] }]
    reports := [0]
    muts := [Mut.create dEx0.name dEx0.zone (synthesize dEx0.name dEx0.id tpEx)] }

/-! ## Basic lemmas about the synthesizer -/

theorem splitOnHyphen_ne_nil (s : Str) : splitOnHyphen s ≠ [] := by
  cases s with
  | nil => simp [splitOnHyphen]
  | cons c rest =>
    simp only [splitOnHyphen]
    cases h : splitOnHyphen rest with
    | nil => simp
    | cons p ps => dsimp only; split <;> simp

theorem splitOnHyphen_length_pos (s : Str) : 0 < (splitOnHyphen s).length :=
  List.length_pos.mpr (splitOnHyphen_ne_nil s)

/-- With a non-positive budget, one truncation-loop iteration changes nothing:
both admission tests `spaceLeft > len(part)` fail because lengths are
non-negative. -/
theorem truncStep_fixed (parts : List Str) (n : Nat) (st : TruncState) (i : Nat)
    (h : st.spaceLeft ≤ 0) : truncStep parts n st i = st := by
  have h1 : ¬(((parts.getD i []).length : Int) < st.spaceLeft) := by
    have := Int.natCast_nonneg (parts.getD i []).length
    omega
  have h2 : ¬(((parts.getD (n - i - 1) []).length : Int) < st.spaceLeft) := by
    have := Int.natCast_nonneg (parts.getD (n - i - 1) []).length
    omega
  unfold truncStep
  dsimp only
  rw [if_neg h1, if_neg h2]

/-- With a non-positive budget, the whole truncation loop changes nothing. -/
theorem foldl_truncStep_fixed (parts : List Str) (n : Nat) (l : List Nat)
    (st : TruncState) (h : st.spaceLeft ≤ 0) : l.foldl (truncStep parts n) st = st := by
  induction l with
  | nil => rfl
  | cons a l ih => rw [List.foldl_cons, truncStep_fixed parts n st a h]; exact ih

theorem collapse_cons_eq_self (w : Str) :
    ∀ c : Char, hasDD (c :: w) = false → collapse (c :: w) = c :: w := by
  induction w with
  | nil => intro c _; rfl
  | cons c2 rest ih =>
    intro c h
    have heq : hasDD (c :: c2 :: rest) =
        ((c = '-' && c2 = '-') || hasDD (c2 :: rest)) := rfl
    rw [heq, Bool.or_eq_false_iff] at h
    have hcol : collapse (c :: c2 :: rest) =
        if c = '-' && c2 = '-' then '-' :: collapse rest
        else c :: collapse (c2 :: rest) := rfl
    rw [hcol, h.1]
    simp [ih c2 h.2]

/-- `strings.Replace(s, "--", "-", -1)` leaves a string without `--` unchanged. -/
theorem collapse_eq_self (w : Str) (h : hasDD w = false) : collapse w = w := by
  cases w with
  | nil => rfl
  | cons c rest => exact collapse_cons_eq_self rest c h

/-- When the id and timestamp exhaust the whole budget (`spaceLeft ≤ 0`), no
segment of the disk name is ever admitted and the synthesized name degenerates
to the collapsed remainder `-<id>-<timestamp>`. -/
theorem synthesize_of_no_budget (dn id tp : Str)
    (h : (55 : Int) - (tp.length : Int) - (id.length : Int) ≤ 0) :
    synthesize dn id tp = '-' :: collapse (id ++ '-' :: tp) := by
  unfold synthesize
  dsimp only
  rw [foldl_truncStep_fixed _ _ _ _ h]
  have hn : (splitOnHyphen dn).length ≠ 0 := (splitOnHyphen_length_pos dn).ne'
  simp [hn, List.drop_length, joinHyphen, collapse]

/-! ## Claims C1 and C5: the length budget of the synthesizer -/

/-- C1, evaluation at the failing input.  The claim (a synthesized name is at
most 55 characters long and has no `--` whenever `len(id) + 12 + 3 ≤ 55`) is
violated by the code: for the disk name made of 60 `x`s followed by `-a`, a
19-character disk id (so `19 + 12 + 3 = 34 ≤ 55`) and timestamp token
`202401151230`, the truncation loop rejects the 60-character head segment,
then — because the budget test looks at `parts[i]` while the window grows by
`parts[startPartEnd]` — admits it anyway in the next iteration, producing a
93-character snapshot name. -/
theorem c1_length_budget_violated :
    (synthesize (List.replicate 60 'x' ++ '-' :: ['a'])
        "1234567890123456789".toList (formatTime 2024 1 15 12 30)).length = 93 ∧
    ¬((synthesize (List.replicate 60 'x' ++ '-' :: ['a'])
          "1234567890123456789".toList (formatTime 2024 1 15 12 30)).length ≤ 55 ∧
      hasDD (synthesize (List.replicate 60 'x' ++ '-' :: ['a'])
          "1234567890123456789".toList (formatTime 2024 1 15 12 30)) = false) := by
  constructor
  · decide
  · decide

/-- C5, counterexample.  The claim says the synthesized name is within the
55-character budget for every input, including diskIds that alone exceed the
whole budget; but for a 50-character id the produced name has 64 characters. -/
theorem c5_budget_counterexample :
    ¬(synthesize ['a'] (List.replicate 50 '0') (formatTime 2024 1 15 12 30)).length ≤ 55 := by
  decide

/-- C5, amended.  The synthesizer is a total function: it produces a name for
every input (in this embedding it is a Lean function, mirroring the fact that
src/backup.go:74-100 has no error path).  But for inputs whose id and
timestamp exhaust the whole budget (in particular whenever `len(diskId)`
alone exceeds it), the name is the degenerate hyphen-joined remainder
`-<id>-<timestamp>` (with `--` collapsed), whose length is
`len(id) + len(timestamp) + 2 > 55` whenever the remainder contains no `--`. -/
theorem c5_total_and_degenerate (dn id tp : Str) (h : 55 ≤ tp.length + id.length) :
    synthesize dn id tp = '-' :: collapse (id ++ '-' :: tp) ∧
    (hasDD (id ++ '-' :: tp) = false →
      (synthesize dn id tp).length = id.length + tp.length + 2 ∧
      55 < (synthesize dn id tp).length) := by
  have hInt : (55 : Int) - (tp.length : Int) - (id.length : Int) ≤ 0 := by omega
  refine ⟨synthesize_of_no_budget dn id tp hInt, fun hdd => ?_⟩
  rw [synthesize_of_no_budget dn id tp hInt, collapse_eq_self _ hdd]
  constructor
  · simp [List.length_append]
    omega
  · simp [List.length_append]
    omega

/-- Witness for `c5_total_and_degenerate` at a concrete input. -/
theorem c5_total_and_degenerate_witness :
    55 ≤ ("202401151230".toList).length + (List.replicate 50 '0').length ∧
    (synthesize ['a'] (List.replicate 50 '0') "202401151230".toList =
      '-' :: collapse (List.replicate 50 '0' ++ '-' :: "202401151230".toList) ∧
    (hasDD (List.replicate 50 '0' ++ '-' :: "202401151230".toList) = false →
      (synthesize ['a'] (List.replicate 50 '0') "202401151230".toList).length =
        (List.replicate 50 '0').length + ("202401151230".toList).length + 2 ∧
      55 < (synthesize ['a'] (List.replicate 50 '0') "202401151230".toList).length)) :=
  ⟨by decide,
    c5_total_and_degenerate ['a'] (List.replicate 50 '0') "202401151230".toList (by decide)⟩

/-! ## Claim C2: retention counts -/

/-- C2, counterexample.  A disk with `N = 3` pre-existing snapshots, one
snapshot created in the same run (prepended at index 0), and limit `L = 2`:
after retention the remaining snapshots excluding the newly created one number
`1`, not `min(N, L) = 2`, and the reported deleted count is `2`, not
`max(0, N - L) = 1` — the code computes both against the post-creation count
`N + 1 = 4`. -/
theorem c2_counterexample :
    ¬(((keptSnapshots dEx1 2).filter (fun s => s ≠ newSnapEx)).length = min 3 2 ∧
      reportedDeleted dEx1 2 = Max 0 ((3 : Int) - 2)) := by
  decide

/-- C2, amended.  For a disk with `N` pre-existing snapshots plus one
snapshot created in the same run (so post-creation count `N + 1`) and limit
`L`: the snapshots remaining after the retention phase are the first
`min(N + 1, L)` entries of the newest-first sequence; excluding the newly
created snapshot the remaining count is `min(N, L - 1)` (`0` when `L = 0`);
and the reported deleted count is `max(0, (N + 1) - L)`. -/
theorem c2_retention_counts (d : Disk) (snew : Snapshot) (L : Nat) :
    keptSnapshots { d with snapshots := snew :: d.snapshots } L =
      (snew :: d.snapshots).take L ∧
    (keptSnapshots { d with snapshots := snew :: d.snapshots } L).length =
      min (d.snapshots.length + 1) L ∧
    (keptSnapshots { d with snapshots := snew :: d.snapshots } L).drop 1 =
      d.snapshots.take (L - 1) ∧
    ((keptSnapshots { d with snapshots := snew :: d.snapshots } L).drop 1).length =
      min d.snapshots.length (L - 1) ∧
    reportedDeleted { d with snapshots := snew :: d.snapshots } L =
      Max 0 ((d.snapshots.length : Int) + 1 - (L : Int)) := by
  have hk : keptSnapshots { d with snapshots := snew :: d.snapshots } L =
      (snew :: d.snapshots).take L := by
    unfold keptSnapshots
    split
    · next h => exact (List.take_of_length_le h).symm
    · rfl
  refine ⟨hk, ?_, ?_, ?_, ?_⟩
  · rw [hk, List.length_take]
    simp [Nat.min_comm]
  · rw [hk]
    cases L with
    | zero => simp
    | succ L' => simp [List.take_succ_cons]
  · rw [hk]
    cases L with
    | zero => simp
    | succ L' => simp [List.take_succ_cons, List.length_take, Nat.min_comm]
  · unfold reportedDeleted
    simp only [List.length_cons]
    push_cast
    ring_nf

/-! ## Claim C4: the deletion candidates are exactly the excess tail -/

/-- C4.  For a disk whose snapshot count exceeds the limit, the snapshots
scheduled for deletion are exactly the entries at indices `[limit, len)` of
the newest-first sequence (the excess oldest ones): they are the tail
complementary to the kept prefix, and with limit 0 every snapshot of the disk
(in particular every pre-existing one) is scheduled. -/
theorem c4_candidates_are_excess_tail (d : Disk) (L : Nat) (h : L < d.snapshots.length) :
    deletionCandidates d L = d.snapshots.drop L ∧
    (deletionCandidates d L).length = d.snapshots.length - L ∧
    keptSnapshots d L ++ deletionCandidates d L = d.snapshots ∧
    (L = 0 → ∀ s ∈ d.snapshots, s ∈ deletionCandidates d L) := by
  have hc : deletionCandidates d L = d.snapshots.drop L := by
    unfold deletionCandidates
    rw [if_neg (by omega)]
  have hk : keptSnapshots d L = d.snapshots.take L := by
    unfold keptSnapshots
    rw [if_neg (by omega)]
  refine ⟨hc, ?_, ?_, ?_⟩
  · rw [hc, List.length_drop]
  · rw [hc, hk, List.take_append_drop]
  · rintro rfl s hs
    rw [hc]
    simpa using hs

/-- Witness for `c4_candidates_are_excess_tail` at the example disk. -/
theorem c4_candidates_witness :
    2 < dEx1.snapshots.length ∧
    (deletionCandidates dEx1 2 = dEx1.snapshots.drop 2 ∧
     (deletionCandidates dEx1 2).length = dEx1.snapshots.length - 2 ∧
     keptSnapshots dEx1 2 ++ deletionCandidates dEx1 2 = dEx1.snapshots ∧
     (2 = 0 → ∀ s ∈ dEx1.snapshots, s ∈ deletionCandidates dEx1 2)) :=
  ⟨by decide, c4_candidates_are_excess_tail dEx1 2 (by decide)⟩

/-! ## Claim C3: the freshly created snapshot as a deletion candidate -/

/-- C3, counterexample.  The claim holds for every limit ≥ 1 but fails at
limit 0: in a run over one disk with no pre-existing snapshots and limit 0,
the snapshot created in that very run is itself selected as a deletion
candidate, and its delete mutation is issued in the same run. -/
theorem c3_limit_zero_counterexample :
    createSnapshotForDisk dEx0 tpEx ∈
      deletionCandidates { dEx0 with snapshots := [createSnapshotForDisk dEx0 tpEx] } 0 ∧
    Mut.delete (createSnapshotForDisk dEx0 tpEx).name ∈
      (runMain okProvider [dEx0] tpEx [0] 0 false).muts := by
  decide

/-- C3, amended.  For every run whose retention limit is at least 1, a
snapshot created during the run is never a deletion candidate: after the
creation phase prepends one arrived snapshot to each disk, every deletion
candidate of every disk is one of that disk's pre-existing snapshots.  (With
limit 0 the new snapshot is itself scheduled, see the counterexample.) -/
theorem c3_created_never_deleted_for_pos_limit (disks : List Disk)
    (arrivals : List Snapshot) (L : Nat) (hL : 1 ≤ L)
    (hlen : arrivals.length = disks.length) :
    List.Forall₂ (fun d1 d0 => ∀ s ∈ deletionCandidates d1 L, s ∈ d0.snapshots)
      (attachCreated disks arrivals) disks := by
  induction disks generalizing arrivals with
  | nil => exact List.Forall₂.nil
  | cons d ds ih =>
    cases arrivals with
    | nil => simp at hlen
    | cons a as =>
      refine List.Forall₂.cons ?_ (ih as (by simpa using hlen))
      intro s hs
      unfold deletionCandidates at hs
      split at hs
      · simp at hs
      · obtain ⟨L', rfl⟩ : ∃ L', L = L' + 1 := ⟨L - 1, by omega⟩
        simp only [List.drop_succ_cons] at hs
        exact List.drop_subset _ _ hs

/-- Witness for `c3_created_never_deleted_for_pos_limit` at a concrete run. -/
theorem c3_created_never_deleted_witness :
    1 ≤ 1 ∧ [createSnapshotForDisk dEx0 tpEx].length = [dEx0].length ∧
    List.Forall₂ (fun d1 d0 => ∀ s ∈ deletionCandidates d1 1, s ∈ d0.snapshots)
      (attachCreated [dEx0] [createSnapshotForDisk dEx0 tpEx]) [dEx0] :=
  ⟨Nat.le_refl 1, rfl,
    c3_created_never_deleted_for_pos_limit [dEx0] [createSnapshotForDisk dEx0 tpEx] 1
      (Nat.le_refl 1) rfl⟩

/-! ## Claim C6: dry-run mode -/

theorem createMuts_dry (disks : List Disk) (tp : Str) : createMuts disks tp true = [] := by
  simp [createMuts, createSnapshotCall]

theorem deleteMuts_dry (disks1 : List Disk) (L : Nat) : deleteMuts disks1 L true = [] := by
  simp [deleteMuts, deleteSnapshotCall]

/-- A dry run never dies and issues no mutations: it reaches the same
completed outcome as a successful non-dry run, with an empty mutation list. -/
theorem runMain_dry (p : Provider) (disks : List Disk) (tp : Str) (order : List Nat)
    (L : Nat) :
    runMain p disks tp order L true =
      if disks.length = 0 then Outcome.noDisks
      else
        Outcome.done
          { disksAfterCreate := attachCreated disks (arrivalsOf disks tp order)
            reports := (attachCreated disks (arrivalsOf disks tp order)).map
              (fun d => reportedDeleted d L)
            muts := [] } := by
  unfold runMain
  split
  · rfl
  · simp [createPhaseOk, deletePhaseOk, createMuts_dry, deleteMuts_dry]

/-- The shape of a completed run: the post-creation disks and the reports are
determined by the inventory, the timestamp and the arrival order alone (they
do not depend on the provider or on the dry-run flag). -/
theorem runMain_done_shape (p : Provider) (disks : List Disk) (tp : Str)
    (order : List Nat) (L : Nat) (dr : Bool) (r : RunResult)
    (h : runMain p disks tp order L dr = Outcome.done r) :
    disks.length ≠ 0 ∧
    r.disksAfterCreate = attachCreated disks (arrivalsOf disks tp order) ∧
    r.reports = (attachCreated disks (arrivalsOf disks tp order)).map
      (fun d => reportedDeleted d L) := by
  unfold runMain at h
  split at h
  · simp at h
  · next hlen =>
    split at h
    · simp at h
    · dsimp only at h
      split at h
      · simp at h
      · rw [Outcome.done.injEq] at h
        exact ⟨hlen, by rw [← h], by rw [← h]⟩

/-- C6.  In dry-run mode no mutating provider call is issued, whatever the
outcome; and whenever the non-dry run over the same inventory (same disks,
timestamp and arrival order) completes, the dry run completes with identical
post-creation disks (hence identical synthesized names) and identical
per-disk deletion reports, only with an empty mutation list. -/
theorem c6_dry_run_no_mutations (p : Provider) (disks : List Disk) (tp : Str)
    (order : List Nat) (L : Nat) :
    (runMain p disks tp order L true).muts = [] ∧
    (∀ r, runMain p disks tp order L false = Outcome.done r →
      runMain p disks tp order L true =
        Outcome.done { disksAfterCreate := r.disksAfterCreate
                       reports := r.reports
                       muts := [] }) := by
  constructor
  · rw [runMain_dry]
    split
    · rfl
    · rfl
  · intro r hr
    obtain ⟨hlen, hd, hrep⟩ := runMain_done_shape p disks tp order L false r hr
    rw [runMain_dry, if_neg hlen, hd, hrep]

/-- Witness for `c6_dry_run_no_mutations` at a concrete completing run. -/
theorem c6_dry_run_witness :
    runMain okProvider [dEx0] tpEx [0] 7 false = Outcome.done rEx ∧
    runMain okProvider [dEx0] tpEx [0] 7 true =
      Outcome.done { disksAfterCreate := rEx.disksAfterCreate
                     reports := rEx.reports
                     muts := [] } :=
  ⟨by decide, (c6_dry_run_no_mutations okProvider [dEx0] tpEx [0] 7).2 rEx (by decide)⟩

/-! ## Claim C7: a creation failure aborts before any deletion -/

/-- C7.  If any single snapshot creation fails in a non-dry run, the run
terminates fatally at the creation phase — before the deletion phase begins —
and no delete mutation is issued for any disk. -/
theorem c7_create_failure_fatal (p : Provider) (disks : List Disk) (tp : Str)
    (order : List Nat) (L : Nat)
    (hfail : ∃ d ∈ disks, p.createOk d.name d.zone (synthesize d.name d.id tp) = false) :
    runMain p disks tp order L false = Outcome.fatal (createMuts disks tp false) ∧
    ∀ m ∈ (runMain p disks tp order L false).muts, ∀ s, m ≠ Mut.delete s := by
  obtain ⟨d0, hd0, hfalse⟩ := hfail
  have hne : disks.length ≠ 0 := by
    intro h0
    rw [List.length_eq_zero] at h0
    subst h0
    simp at hd0
  have hall : createPhaseOk p disks tp false = false := by
    simp only [createPhaseOk, Bool.false_or, List.all_eq_false]
    exact ⟨d0, hd0, by simp [hfalse]⟩
  have hrun : runMain p disks tp order L false = Outcome.fatal (createMuts disks tp false) := by
    unfold runMain
    rw [if_neg hne, if_pos hall]
  refine ⟨hrun, ?_⟩
  rw [hrun]
  intro m hm s
  simp only [Outcome.muts] at hm
  unfold createMuts at hm
  rw [List.mem_flatten] at hm
  obtain ⟨l, hl, hml⟩ := hm
  rw [List.mem_map] at hl
  obtain ⟨d', _, rfl⟩ := hl
  simp only [createSnapshotCall, Bool.false_eq_true, if_false, List.mem_singleton] at hml
  subst hml
  simp

/-- Witness for `c7_create_failure_fatal` with an always-failing provider. -/
theorem c7_create_failure_witness :
    (∃ d ∈ [dEx0], failProvider.createOk d.name d.zone (synthesize d.name d.id tpEx) = false) ∧
    (runMain failProvider [dEx0] tpEx [0] 7 false = Outcome.fatal (createMuts [dEx0] tpEx false) ∧
     ∀ m ∈ (runMain failProvider [dEx0] tpEx [0] 7 false).muts, ∀ s, m ≠ Mut.delete s) :=
  ⟨⟨dEx0, by simp, rfl⟩, c7_create_failure_fatal failProvider [dEx0] tpEx [0] 7 ⟨dEx0, by simp, rfl⟩⟩

/-! ## Claim C8: the state of the disks at the end of the creation phase -/

/-- Attaching one arrived snapshot per disk grows every disk's newest-first
sequence by exactly one, preserves the pre-existing snapshots in order at
indices 1 onward, and puts at index 0 a member of `created` whenever every
arrival is one. -/
theorem attachCreated_forall₂ (disks : List Disk) (arrivals : List Snapshot)
    (created : List Snapshot) (hmem : ∀ a ∈ arrivals, a ∈ created)
    (hlen : arrivals.length = disks.length) :
    List.Forall₂ (fun d1 d0 =>
        d1.snapshots.length = d0.snapshots.length + 1 ∧
        ∃ c ∈ created, d1.snapshots = c :: d0.snapshots)
      (attachCreated disks arrivals) disks := by
  induction disks generalizing arrivals with
  | nil => exact List.Forall₂.nil
  | cons d ds ih =>
    cases arrivals with
    | nil => simp at hlen
    | cons a as =>
      refine List.Forall₂.cons ⟨by simp, a, hmem a (by simp), rfl⟩ ?_
      exact ih as (fun x hx => hmem x (List.mem_cons_of_mem a hx)) (by simpa using hlen)

/-- C8.  For every disk list and every channel arrival order (any permutation
of the creation indices), at the end of the creation phase every disk's
snapshot sequence is one longer than before, has some snapshot created in
this run at index 0, and keeps the pre-existing snapshots in their original
order at indices 1 onward. -/
theorem c8_creation_phase_shape (disks : List Disk) (tp : Str) (order : List Nat)
    (hperm : order.Perm (List.range disks.length)) :
    List.Forall₂ (fun d1 d0 =>
        d1.snapshots.length = d0.snapshots.length + 1 ∧
        ∃ c ∈ createdSnapshots disks tp, d1.snapshots = c :: d0.snapshots)
      (attachCreated disks (arrivalsOf disks tp order)) disks := by
  refine attachCreated_forall₂ disks (arrivalsOf disks tp order)
    (createdSnapshots disks tp) ?_ ?_
  · intro a ha
    unfold arrivalsOf at ha
    rw [List.mem_map] at ha
    obtain ⟨j, hj, rfl⟩ := ha
    have hjn : j < disks.length := by
      have : j ∈ List.range disks.length := hperm.mem_iff.mp hj
      exact List.mem_range.mp this
    have hjc : j < (createdSnapshots disks tp).length := by
      unfold createdSnapshots
      simpa using hjn
    rw [List.getD_eq_getElem _ _ hjc]
    exact List.getElem_mem hjc
  · unfold arrivalsOf
    rw [List.length_map, hperm.length_eq, List.length_range]

/-- Witness for `c8_creation_phase_shape` at a concrete run. -/
theorem c8_creation_phase_witness :
    [0].Perm (List.range [dEx0].length) ∧
    List.Forall₂ (fun d1 d0 =>
        d1.snapshots.length = d0.snapshots.length + 1 ∧
        ∃ c ∈ createdSnapshots [dEx0] tpEx, d1.snapshots = c :: d0.snapshots)
      (attachCreated [dEx0] (arrivalsOf [dEx0] tpEx [0])) [dEx0] :=
  ⟨by decide, c8_creation_phase_shape [dEx0] tpEx [0] (by decide)⟩

/-! ## Claim C9: unmarshal errors are discarded -/

/-- C9.  If the listing command succeeds (`cmdErr = none`) but its output is
not valid JSON (`unmarshalled = none`), the parse error is discarded: the
disk loader returns an empty list with a nil error, the snapshot loader
returns an empty snapshot list with a nil error (the disk is treated as
having zero snapshots), and a run over an empty disk list ends early,
reporting no disks, with no mutating call issued. -/
theorem c9_unmarshal_errors_discarded (cmdOut : Str) (p : Provider) (tp : Str)
    (order : List Nat) (L : Nat) (dr : Bool) :
    getDisksToSnapshot cmdOut none none = ProcResult.ok ([], none) ∧
    getDiskSnapshots cmdOut none none = ProcResult.ok ([], none) ∧
    runMain p [] tp order L dr = Outcome.noDisks ∧
    (runMain p [] tp order L dr).muts = [] := by
  exact ⟨rfl, rfl, rfl, rfl⟩

/-! ## Claim C10: the error branches after `log.Fatal` are dead -/

/-- C10.  Whenever `getCommandResult` actually returns to its caller (rather
than the process exiting through `log.Fatal`), its error result is nil; hence
in the callers the error-forwarding branches are dead: whenever
`getDisksToSnapshot` or `getDiskSnapshots` returns, the returned error is
nil as well. -/
theorem c10_error_branches_dead (cmdOut : Str) (cmdErr : Option Str) :
    (∀ v, getCommandResult cmdOut cmdErr = ProcResult.ok v → v.2 = none) ∧
    (∀ uds res, getDisksToSnapshot cmdOut cmdErr uds = ProcResult.ok res → res.2 = none) ∧
    (∀ uss res, getDiskSnapshots cmdOut cmdErr uss = ProcResult.ok res → res.2 = none) := by
  cases cmdErr with
  | none =>
    refine ⟨?_, ?_, ?_⟩
    · intro v h
      cases h
      rfl
    · intro uds res h
      cases h
      rfl
    · intro uss res h
      cases h
      rfl
  | some e =>
    refine ⟨?_, ?_, ?_⟩
    · intro v h
      simp [getCommandResult] at h
    · intro uds res h
      simp [getDisksToSnapshot, getCommandResult] at h
    · intro uss res h
      simp [getDiskSnapshots, getCommandResult] at h

/-- Witness for `c10_error_branches_dead` at a concrete call. -/
theorem c10_error_branches_witness :
    getCommandResult ['a'] none = ProcResult.ok (['a'], none) ∧
    ((['a'], (none : Option Str)) : Str × Option Str).2 = none :=
  ⟨rfl, (c10_error_branches_dead ['a'] none).1 (['a'], none) rfl⟩

end GcpBackups
